import Mathlib

/-!
Verification of the icon-container decoder of `src/main.rs` (`extract_ico` and
its helpers).  The Rust code is shallowly embedded: byte buffers are `List Nat`
values whose elements are read through `readU8` (which reduces modulo 256, the
`u8` value range), multi-byte little-endian fields are assembled from those
bytes, `u32` arithmetic that can wrap in Rust is written with an explicit
`% 2 ^ 32`, and `usize` arithmetic (whose intermediate values stay far below
`2 ^ 64` on every input considered here) is plain `Nat` arithmetic.  Fallible
code returns `Except IcoError`; a Rust panic caused by a slice index that is
out of bounds inside a pixel loop is modelled by the dedicated error value
`IcoError.indexOob` (the loops access a maximal index, so panic freedom is
equivalent to a single bounds check, which the definitions below perform up
front).
-/

namespace IconRust

/-- Read one byte of a buffer: `buf[o]` for a `Vec<u8>`, with the `u8` range
made explicit by reducing modulo 256 (out-of-range reads default to 0 and are
only ever used where the Rust code has already established bounds). -/
def readU8 (l : List Nat) (o : Nat) : Nat := l.getD o 0 % 256

/-- Little-endian `u16` at offset `o`, as in `u16::from_le_bytes`. -/
def readU16 (l : List Nat) (o : Nat) : Nat := readU8 l o + 256 * readU8 l (o + 1)

/-- Little-endian `u32` at offset `o`, as in `u32::from_le_bytes`. -/
def readU32 (l : List Nat) (o : Nat) : Nat :=
  readU8 l o + 256 * readU8 l (o + 1) + 65536 * readU8 l (o + 2) +
    16777216 * readU8 l (o + 3)

/-- Reinterpret the `u32` bit pattern `u` as an `i32`, as in
`i32::from_le_bytes`. -/
def toInt32 (u : Nat) : Int := if u < 2 ^ 31 then (u : Int) else (u : Int) - 2 ^ 32

/-- One 16-byte ICO directory record, as parsed in `extract_ico`
(`struct DirEntry`). -/
structure DirEntry where
  width : Nat
  height : Nat
  bitcount : Nat
  bytes_in_res : Nat
  image_offset : Nat
deriving Repr, DecidableEq

/-- Declared width with the 0-means-256 substitution
(`if e.width == 0 { 256 } else { e.width as u32 }`). -/
def entryW (e : DirEntry) : Nat := if e.width = 0 then 256 else e.width

/-- Declared height with the 0-means-256 substitution. -/
def entryH (e : DirEntry) : Nat := if e.height = 0 then 256 else e.height

/-- The selection key `(area, bitcount, bytes_in_res)` built in the selection
loop of `extract_ico`. -/
def entryKey (e : DirEntry) : Nat × Nat × Nat :=
  (entryW e * entryH e, e.bitcount, e.bytes_in_res)

/-- Strict lexicographic greater-than on selection keys, the Rust tuple
comparison `key > best_key`. -/
def keyGt (a b : Nat × Nat × Nat) : Bool :=
  decide (b.1 < a.1) ||
    (decide (a.1 = b.1) &&
      (decide (b.2.1 < a.2.1) ||
        (decide (a.2.1 = b.2.1) && decide (b.2.2 < a.2.2))))

/-- The selection loop of `extract_ico`: fold over the entries keeping the
current best entry and its key, replacing them only on strict improvement. -/
def selectLoop : List DirEntry → Option DirEntry → Nat × Nat × Nat → Option DirEntry
  | [], best, _ => best
  | e :: rest, best, bestKey =>
    if keyGt (entryKey e) bestKey then selectLoop rest (some e) (entryKey e)
    else selectLoop rest best bestKey

/-- Entry selection in `extract_ico`: the loop starts from no best entry and
the zero key `(0, 0, 0)`. -/
def selectBest (es : List DirEntry) : Option DirEntry := selectLoop es none (0, 0, 0)

/-- The error outcomes of `extract_ico`, one constructor per `bail!` site plus
`ioError` for failing `read_exact` calls and `indexOob` for a Rust panic from
an out-of-bounds slice index in a pixel loop. -/
inductive IcoError where
  | ioError
  | invalidReserved
  | notIco
  | noEntries
  | unsupportedBlobFormat
  | unsupportedDibHeader
  | invalidDibHeight
  | compressedUnsupported
  | truncated32
  | truncatedPalette
  | truncatedPixelArray
  | unsupportedBpp
  | indexOob
deriving Repr, DecidableEq

/-- The error kinds the specification groups as `TruncatedDataError`: the
bail sites "Truncated 32bpp data", "Truncated palette", "Truncated pixel
array". -/
def IcoError.isTruncatedData : IcoError → Bool
  | .truncated32 => true
  | .truncatedPalette => true
  | .truncatedPixelArray => true
  | _ => false

/-- The error kinds the specification groups as `FormatError`: the bail sites
"Invalid ICO reserved" and "Not ICO". -/
def IcoError.isFormatError : IcoError → Bool
  | .invalidReserved => true
  | .notIco => true
  | _ => false

/-- One RGBA sample, each channel a byte. -/
structure Rgba where
  r : Nat
  g : Nat
  b : Nat
  a : Nat
deriving Repr, DecidableEq

/-- A decoded pixel buffer: dimensions plus the pixel written at each
coordinate by the decode loops (top-down, row-major, as `RgbaImage`). -/
structure Image where
  width : Nat
  height : Nat
  pix : Nat → Nat → Rgba

/-- The `biSize` field: `u32` at offset 0 of the blob. -/
def headerSize (blob : List Nat) : Nat := readU32 blob 0

/-- The `biWidth` field reinterpreted as `u32`
(`i32::from_le_bytes(..) as u32`). -/
def dibW (blob : List Nat) : Nat := readU32 blob 4

/-- The `biHeight` field as a signed value (`dib_h_total`). -/
def dibHTotal (blob : List Nat) : Int := toInt32 (readU32 blob 8)

/-- The true pixel height `(dib_h_total as u32) / 2`. -/
def dibH (blob : List Nat) : Nat := readU32 blob 8 / 2

/-- The `biBitCount` field: `u16` at offset 14. -/
def dibBpp (blob : List Nat) : Nat := readU16 blob 14

/-- The `biCompression` field: `u32` at offset 16. -/
def dibCompression (blob : List Nat) : Nat := readU32 blob 16

/-- The `biClrUsed` field: `u32` at offset 32. -/
def dibClrUsed (blob : List Nat) : Nat := readU32 blob 32

/-- Byte count of the 32bpp pixel array:
`(dib_w * dib_h) as usize * 4`, where the multiplication is performed in
`u32` and therefore wraps modulo `2 ^ 32`. -/
def expected32 (blob : List Nat) : Nat := dibW blob * dibH blob % 2 ^ 32 * 4

/-- The 32bpp pixel slice `&blob[header_size..header_size + expected]`. -/
def dib32Data (blob : List Nat) : List Nat :=
  (blob.drop (headerSize blob)).take (expected32 blob)

/-- Panic freedom of the 32bpp loops: every access `data[i]` with
`i = (src_row * dib_w + x) * 4 + c`, `c < 4`, is in bounds.  The largest such
index occurs at `y = 0`, `x = dib_w - 1`, so one comparison decides it. -/
def ok32 (blob : List Nat) : Bool :=
  decide (dibW blob = 0) || decide (dibH blob = 0) ||
    decide (((dibH blob - 1) * dibW blob + (dibW blob - 1)) * 4 + 3 < expected32 blob)

/-- The body of the 32bpp loops: output pixel `(x, y)` reads the 4 bytes at
`i = ((dib_h - 1 - y) * dib_w + x) * 4` of the pixel slice in B, G, R, A
order and stores them as R, G, B, A. -/
def dib32Pix (blob : List Nat) (x y : Nat) : Rgba :=
  let data := dib32Data blob
  let i := ((dibH blob - 1 - y) * dibW blob + x) * 4
  ⟨readU8 data (i + 2), readU8 data (i + 1), readU8 data i, readU8 data (i + 3)⟩

/-- Palette entry count: `clr_used` if nonzero, else 256. -/
def paletteLen (blob : List Nat) : Nat :=
  if 0 < dibClrUsed blob then dibClrUsed blob else 256

/-- Palette byte count `palette_len * 4` (a `usize` product). -/
def paletteBytes (blob : List Nat) : Nat := paletteLen blob * 4

/-- The palette slice `&blob[header_size..header_size + palette_bytes]`. -/
def palette (blob : List Nat) : List Nat :=
  (blob.drop (headerSize blob)).take (paletteBytes blob)

/-- The 8bpp row stride `((dib_w * 8 + 31) / 32) * 4`, computed in `u32`, so
the sum wraps modulo `2 ^ 32` before the division. -/
def rowStride8 (blob : List Nat) : Nat := (dibW blob * 8 + 31) % 2 ^ 32 / 32 * 4

/-- The 8bpp pixel array byte count `(row_stride * dib_h) as usize`, a `u32`
product that wraps modulo `2 ^ 32`. -/
def pixelArraySize8 (blob : List Nat) : Nat := rowStride8 blob * dibH blob % 2 ^ 32

/-- Offset of the 8bpp pixel array: `header_size + palette_bytes`. -/
def pixelOffset8 (blob : List Nat) : Nat := headerSize blob + paletteBytes blob

/-- The 8bpp pixel slice. -/
def pixels8 (blob : List Nat) : List Nat :=
  (blob.drop (pixelOffset8 blob)).take (pixelArraySize8 blob)

/-- The AND-mask row stride `((dib_w + 31) / 32) * 4`, computed in `u32`. -/
def maskStride (blob : List Nat) : Nat := (dibW blob + 31) % 2 ^ 32 / 32 * 4

/-- The mask byte count `(mask_stride * dib_h) as usize`, a `u32` product. -/
def maskSize (blob : List Nat) : Nat := maskStride blob * dibH blob % 2 ^ 32

/-- Offset of the mask: directly after the pixel array. -/
def maskOffset (blob : List Nat) : Nat := pixelOffset8 blob + pixelArraySize8 blob

/-- Mask presence test of `extract_ico`: the blob is long enough to hold the
whole mask (`blob.len() >= mask_offset + mask_stride * dib_h`). -/
def maskPresent (blob : List Nat) : Bool :=
  decide (maskOffset blob + maskSize blob ≤ blob.length)

/-- The mask slice, meaningful when `maskPresent`. -/
def maskBytes (blob : List Nat) : List Nat :=
  (blob.drop (maskOffset blob)).take (maskSize blob)

/-- Panic freedom of the 8bpp colour loop: every access
`pixels[src_row * row_stride + x]` is in bounds; the largest index occurs at
`y = 0`, `x = dib_w - 1`.  The mask loop guards its own index explicitly and
cannot panic. -/
def ok8 (blob : List Nat) : Bool :=
  decide (dibW blob = 0) || decide (dibH blob = 0) ||
    decide ((dibH blob - 1) * rowStride8 blob + (dibW blob - 1) < pixelArraySize8 blob)

/-- The body of the 8bpp loops: the palette index is the pixel byte clamped
to `palette_len - 1`; the colour comes from the palette entry in B, G, R
order; alpha starts at 255 and the second loop forces it to 0 when the mask
is present, the guarded mask byte index is in range and the addressed bit
(most significant bit first) is set. -/
def dib8Pix (blob : List Nat) (x y : Nat) : Rgba :=
  let srcRow := dibH blob - 1 - y
  let idx8 := readU8 (pixels8 blob) (srcRow * rowStride8 blob + x)
  let base := min idx8 (paletteLen blob - 1) * 4
  let a : Nat :=
    if maskPresent blob then
      let bi := srcRow * maskStride blob + x / 8
      if bi < (maskBytes blob).length ∧ readU8 (maskBytes blob) bi / 2 ^ (7 - x % 8) % 2 = 1
      then 0 else 255
    else 255
  ⟨readU8 (palette blob) (base + 2), readU8 (palette blob) (base + 1),
    readU8 (palette blob) base, a⟩

/-- The legacy DIB decode of `extract_ico` (everything after the PNG
signature test), with checks in the exact order of the source. -/
def decodeDib (blob : List Nat) : Except IcoError Image :=
  if blob.length < 40 then .error .unsupportedBlobFormat
  else if headerSize blob < 40 then .error .unsupportedDibHeader
  else if dibHTotal blob ≤ 0 then .error .invalidDibHeight
  else if dibCompression blob ≠ 0 then .error .compressedUnsupported
  else if dibBpp blob = 32 then
    if blob.length < headerSize blob + expected32 blob then .error .truncated32
    else if ok32 blob then .ok ⟨dibW blob, dibH blob, dib32Pix blob⟩
    else .error .indexOob
  else if dibBpp blob = 8 then
    if blob.length < headerSize blob + paletteBytes blob then .error .truncatedPalette
    else if blob.length < pixelOffset8 blob + pixelArraySize8 blob then
      .error .truncatedPixelArray
    else if ok8 blob then .ok ⟨dibW blob, dibH blob, dib8Pix blob⟩
    else .error .indexOob
  else .error .unsupportedBpp

/-- A successful run of `extract_ico`: either the selected blob carried the
PNG signature and is handed to the external PNG decoder, or the legacy path
decoded an image and saves it under the given file name. -/
inductive ExtractOk where
  | png (blob : List Nat)
  | image (name : String) (img : Image)

/-- The fixed 8-byte PNG signature. -/
def pngSig : List Nat := [137, 80, 78, 71, 13, 10, 26, 10]

/-- The PNG test of `extract_ico`: `blob.len() >= 8 && &blob[..8] == PNG_SIG`. -/
def isPng (blob : List Nat) : Bool :=
  decide (8 ≤ blob.length) && decide (blob.take 8 = pngSig)

/-- Parse the `i`-th 16-byte directory record, located at offset `6 + 16 * i`
of the file. -/
def parseEntry (file : List Nat) (i : Nat) : DirEntry :=
  let o := 6 + 16 * i
  ⟨readU8 file o, readU8 file (o + 1), readU16 file (o + 6), readU32 file (o + 8),
    readU32 file (o + 12)⟩

/-- Parse all `count` directory records in file order. -/
def parseEntries (file : List Nat) (count : Nat) : List DirEntry :=
  (List.range count).map (parseEntry file)

/-- The output file name `format!("{}x{}.png", w, h)`. -/
def outName (w h : Nat) : String := toString w ++ "x" ++ toString h ++ ".png"

/-- The `extract_ico` pipeline on the bytes of the input file: read and
validate the 6-byte header, read the directory, select the best entry, read
its blob (`read_exact` fails when the requested range runs past the end of
the file and the request is nonempty), then branch on the PNG signature or
decode the legacy DIB, naming the written file after the decoded dimensions.
Writing to disk is the external persistence collaborator; a run that returns
an error writes nothing. -/
def extractIco (file : List Nat) : Except IcoError ExtractOk :=
  if file.length < 6 then .error .ioError
  else if readU16 file 0 ≠ 0 then .error .invalidReserved
  else if readU16 file 2 ≠ 1 then .error .notIco
  else
    let count := readU16 file 4
    if file.length < 6 + 16 * count then .error .ioError
    else
      match selectBest (parseEntries file count) with
      | none => .error .noEntries
      | some e =>
        if 0 < e.bytes_in_res ∧ file.length < e.image_offset + e.bytes_in_res then
          .error .ioError
        else
          let blob := (file.drop e.image_offset).take e.bytes_in_res
          if isPng blob then .ok (.png blob)
          else
            match decodeDib blob with
            | .error err => .error err
            | .ok img => .ok (.image (outName img.width img.height) img)

/-- The name of the file a successful legacy-path run writes. -/
def extractName : Except IcoError ExtractOk → Option String
  | .ok (.image name _) => some name
  | _ => none

/-- The width of the image a successful legacy-path run writes. -/
def extractWidth : Except IcoError ExtractOk → Option Nat
  | .ok (.image _ img) => some img.width
  | _ => none

/-- Destination directory contents after one `save` call, modelled from the
semantics of `File::create` used by `RgbaImage::save`: creating a path that
already exists truncates and overwrites it, so the set of names gains a new
element only when the name is absent. -/
def writeName (names : List String) (n : String) : List String :=
  if n ∈ names then names else names ++ [n]

/-- One full run against a destination directory holding `names`: on a
successful legacy decode the produced name is written, otherwise the
directory is unchanged. -/
def runExtractName (names : List String) (file : List Nat) : List String :=
  match extractName (extractIco file) with
  | some n => writeName names n
  | none => names
/-- The selection loop of extract_ico restated over a always-present current
best entry: once some entry has been adopted the fold keeps the current best
unless a later key is strictly greater. -/
def pickFirstMax : DirEntry → List DirEntry → DirEntry
  | b, [] => b
  | b, e :: es => if keyGt (entryKey e) (entryKey b) then pickFirstMax e es else pickFirstMax b es

/-- Mask bit as claim C2 words it: for output pixel (x, y) the bit is read
bottom-up over the true height with stride ceil(width/32)*4 bytes per row,
most significant bit first within each byte, from the bytes immediately
after the pixel array. -/
def specMaskBit (blob : List Nat) (x y : Nat) : Bool :=
  decide (readU8 blob
      (maskOffset blob + (dibH blob - 1 - y) * ((dibW blob + 31) / 32 * 4) + x / 8)
      / 2 ^ (7 - x % 8) % 2 = 1)


/-- Test vector: a 32bpp DIB blob, 1 pixel wide, combined height 2 (true
height 1), whose single pixel has bytes B=10, G=20, R=30, A=40. -/
def blobC3 : List Nat :=
  [40, 0, 0, 0, 1, 0, 0, 0, 2, 0, 0, 0, 1, 0, 32, 0] ++
    List.replicate 24 0 ++ [10, 20, 30, 40]

/-- Test vector: an 8bpp DIB blob with a one-entry palette (B=1, G=2, R=3),
one pixel of index 0 and a full 4-byte mask whose first bit is set. -/
def blobC2 : List Nat :=
  [40, 0, 0, 0, 1, 0, 0, 0, 2, 0, 0, 0, 1, 0, 8, 0] ++
    List.replicate 16 0 ++ [1, 0, 0, 0] ++ [0, 0, 0, 0] ++
    [1, 2, 3, 0] ++ [0, 0, 0, 0] ++ [128, 0, 0, 0]

/-- Test vector: an 8bpp DIB blob with a one-entry palette and pixel byte
255 (out of palette range), ending right after the pixel array: no mask
bytes at all. -/
def blobC5 : List Nat :=
  [40, 0, 0, 0, 1, 0, 0, 0, 2, 0, 0, 0, 1, 0, 8, 0] ++
    List.replicate 16 0 ++ [1, 0, 0, 0] ++ [0, 0, 0, 0] ++
    [1, 2, 3, 0] ++ [255, 0, 0, 0]

/-- Test vector: blobC5 followed by 2 mask bytes, fewer than the 4 a full
mask row needs. -/
def blobC10 : List Nat := blobC5 ++ [128, 0]

/-- Test vector: a 40-byte blob whose declared header size is 10. -/
def blobC7 : List Nat := [10, 0, 0, 0] ++ List.replicate 36 0

/-- Test vector: a complete ICO file with one 1-by-1 32bpp entry, pixel
bytes 10, 20, 30, 40. -/
def fileA : List Nat :=
  [0, 0, 1, 0, 1, 0] ++ [1, 1, 0, 0, 1, 0, 32, 0, 44, 0, 0, 0, 22, 0, 0, 0] ++
    ([40, 0, 0, 0, 1, 0, 0, 0, 2, 0, 0, 0, 1, 0, 32, 0] ++
      List.replicate 24 0 ++ [10, 20, 30, 40])

/-- Test vector: as fileA but with pixel bytes 50, 60, 70, 80. -/
def fileB : List Nat :=
  [0, 0, 1, 0, 1, 0] ++ [1, 1, 0, 0, 1, 0, 32, 0, 44, 0, 0, 0, 22, 0, 0, 0] ++
    ([40, 0, 0, 0, 1, 0, 0, 0, 2, 0, 0, 0, 1, 0, 32, 0] ++
      List.replicate 24 0 ++ [50, 60, 70, 80])

/-- Test vector: a complete ICO file whose directory entry declares width
byte 0 and height byte 0 (256 by the 0-means-256 rule) while its blob is a
1-by-1 32bpp DIB. -/
def fileC4 : List Nat :=
  [0, 0, 1, 0, 1, 0] ++ [0, 0, 0, 0, 1, 0, 32, 0, 44, 0, 0, 0, 22, 0, 0, 0] ++
    ([40, 0, 0, 0, 1, 0, 0, 0, 2, 0, 0, 0, 1, 0, 32, 0] ++
      List.replicate 24 0 ++ [10, 20, 30, 40])



theorem keyGt_iff (a b : Nat × Nat × Nat) :
    keyGt a b = true ↔
      b.1 < a.1 ∨ a.1 = b.1 ∧ (b.2.1 < a.2.1 ∨ a.2.1 = b.2.1 ∧ b.2.2 < a.2.2) := by
  simp [keyGt]

theorem keyGt_false_iff (a b : Nat × Nat × Nat) :
    keyGt a b = false ↔
      ¬(b.1 < a.1 ∨ a.1 = b.1 ∧ (b.2.1 < a.2.1 ∨ a.2.1 = b.2.1 ∧ b.2.2 < a.2.2)) := by
  rw [← Bool.not_eq_true, keyGt_iff]

theorem keyGt_irrefl (a : Nat × Nat × Nat) : keyGt a a = false := by
  rw [keyGt_false_iff]; omega


theorem selectLoop_some : ∀ (es : List DirEntry) (b : DirEntry),
    selectLoop es (some b) (entryKey b) = some (pickFirstMax b es)
  | [], _ => rfl
  | e :: es, b => by
    rw [selectLoop, pickFirstMax]
    by_cases h : keyGt (entryKey e) (entryKey b) = true
    · rw [if_pos h, if_pos h, selectLoop_some]
    · rw [if_neg h, if_neg h, selectLoop_some]

theorem pickFirstMax_split : ∀ (es : List DirEntry) (b : DirEntry),
    ∃ l1 l2, b :: es = l1 ++ pickFirstMax b es :: l2 ∧
      (∀ a ∈ b :: es, keyGt (entryKey a) (entryKey (pickFirstMax b es)) = false) ∧
      (∀ a ∈ l1, keyGt (entryKey (pickFirstMax b es)) (entryKey a) = true)
  | [], b => ⟨[], [], rfl, by simpa using keyGt_irrefl (entryKey b), by simp⟩
  | e :: es, b => by
    rw [pickFirstMax]
    by_cases h : keyGt (entryKey e) (entryKey b) = true
    · rw [if_pos h]
      obtain ⟨l1, l2, heq, hmax, hpre⟩ := pickFirstMax_split es e
      have he := hmax e (List.mem_cons_self e es)
      refine ⟨b :: l1, l2, ?_, ?_, ?_⟩
      · rw [List.cons_append, ← heq]
      · intro a ha
        rcases List.mem_cons.1 ha with rfl | ha2
        · rw [keyGt_false_iff] at he ⊢; rw [keyGt_iff] at h; omega
        · exact hmax a ha2
      · intro a ha
        rcases List.mem_cons.1 ha with rfl | ha2
        · rw [keyGt_false_iff] at he; rw [keyGt_iff] at h ⊢; omega
        · exact hpre a ha2
    · rw [if_neg h]
      obtain ⟨l1, l2, heq, hmax, hpre⟩ := pickFirstMax_split es b
      cases l1 with
      | nil =>
        simp only [List.nil_append] at heq
        obtain ⟨hb, hes⟩ := List.cons.injEq .. |>.mp heq
        refine ⟨[], e :: es, ?_, ?_, by simp⟩
        · rw [List.nil_append, ← hb]
        · intro a ha
          rcases List.mem_cons.1 ha with rfl | ha2
          · rw [← hb]; exact keyGt_irrefl _
          · rcases List.mem_cons.1 ha2 with rfl | ha3
            · rw [← hb]; exact Bool.eq_false_iff.mpr h
            · exact hmax a (List.mem_cons.2 (Or.inr ha3))
      | cons hd tl =>
        simp only [List.cons_append] at heq
        obtain ⟨hb, hes⟩ := List.cons.injEq .. |>.mp heq
        have hpfb : keyGt (entryKey (pickFirstMax b es)) (entryKey b) = true := by
          have := hpre hd (List.mem_cons_self hd tl)
          rwa [← hb] at this
        refine ⟨b :: e :: tl, l2, ?_, ?_, ?_⟩
        · rw [List.cons_append, List.cons_append, ← hes]
        · intro a ha
          rcases List.mem_cons.1 ha with rfl | ha2
          · exact hmax a (List.mem_cons_self a es)
          · rcases List.mem_cons.1 ha2 with rfl | ha3
            · have h2 := Bool.eq_false_iff.mpr h
              rw [keyGt_false_iff] at h2 ⊢; rw [keyGt_iff] at hpfb; omega
            · exact hmax a (List.mem_cons.2 (Or.inr ha3))
        · intro a ha
          rcases List.mem_cons.1 ha with rfl | ha2
          · exact hpfb
          · rcases List.mem_cons.1 ha2 with rfl | ha3
            · have h2 := Bool.eq_false_iff.mpr h
              rw [keyGt_false_iff] at h2; rw [keyGt_iff] at hpfb ⊢; omega
            · exact hpre a (List.mem_cons.2 (Or.inr ha3))

theorem entryW_pos (e : DirEntry) : 0 < entryW e := by
  rw [entryW]; split <;> omega

theorem entryH_pos (e : DirEntry) : 0 < entryH e := by
  rw [entryH]; split <;> omega

/-- C1: for every non-empty list of directory entries, the selection fold of
extract_ico returns exactly the first entry whose key (declared area with 0
replaced by 256 on each axis, then bit depth, then byte length) is
lexicographically maximal: the list splits around the chosen entry, no entry
has a strictly greater key, and every entry before the chosen one is
strictly below it, so entries with identical keys lose to the first one; and
selectBest is a plain function of the list, hence deterministic. -/
theorem c1_selector_first_max (es : List DirEntry) (hne : es ≠ []) :
    ∃ e l1 l2, selectBest es = some e ∧ es = l1 ++ e :: l2 ∧
      (∀ a ∈ es, keyGt (entryKey a) (entryKey e) = false) ∧
      (∀ a ∈ l1, keyGt (entryKey e) (entryKey a) = true) := by
  match es, hne with
  | e0 :: es, _ =>
    have h0 : keyGt (entryKey e0) (0, 0, 0) = true := by
      rw [keyGt_iff]
      exact Or.inl (Nat.mul_pos (entryW_pos e0) (entryH_pos e0))
    rw [selectBest, selectLoop, if_pos h0, selectLoop_some]
    obtain ⟨l1, l2, heq, hmax, hpre⟩ := pickFirstMax_split es e0
    exact ⟨_, l1, l2, rfl, heq, hmax, hpre⟩

theorem readU8_take (l : List Nat) (n j : Nat) (hj : j < n) :
    readU8 (l.take n) j = readU8 l j := by
  unfold readU8
  rw [List.getD_eq_getElem?_getD, List.getD_eq_getElem?_getD, List.getElem?_take_of_lt hj]

theorem readU8_drop (l : List Nat) (a j : Nat) :
    readU8 (l.drop a) j = readU8 l (a + j) := by
  unfold readU8
  rw [List.getD_eq_getElem?_getD, List.getD_eq_getElem?_getD, List.getElem?_drop]

theorem readU8_dib32Data (blob : List Nat) (j : Nat) (hj : j < expected32 blob) :
    readU8 (dib32Data blob) j = readU8 blob (headerSize blob + j) := by
  rw [dib32Data, readU8_take _ _ _ hj, readU8_drop]

theorem decodeDib_ok_32 {blob : List Nat} {img : Image}
    (h : decodeDib blob = .ok img) (hbpp : dibBpp blob = 32) :
    40 ≤ blob.length ∧ 40 ≤ headerSize blob ∧ 0 < dibHTotal blob ∧
      dibCompression blob = 0 ∧ headerSize blob + expected32 blob ≤ blob.length ∧
      ok32 blob = true ∧ img = ⟨dibW blob, dibH blob, dib32Pix blob⟩ := by
  unfold decodeDib at h
  split_ifs at h <;> first
    | exact Except.noConfusion h
    | (refine ⟨by omega, by omega, by omega, by omega, by omega, by assumption, ?_⟩
       injection h with h2
       exact h2.symm)

theorem decodeDib_ok_8 {blob : List Nat} {img : Image}
    (h : decodeDib blob = .ok img) (hbpp : dibBpp blob = 8) :
    40 ≤ blob.length ∧ 40 ≤ headerSize blob ∧ 0 < dibHTotal blob ∧
      dibCompression blob = 0 ∧ headerSize blob + paletteBytes blob ≤ blob.length ∧
      pixelOffset8 blob + pixelArraySize8 blob ≤ blob.length ∧
      ok8 blob = true ∧ img = ⟨dibW blob, dibH blob, dib8Pix blob⟩ := by
  unfold decodeDib at h
  split_ifs at h <;> first
    | exact Except.noConfusion h
    | exact absurd hbpp (by omega)
    | (refine ⟨by omega, by omega, by omega, by omega, by omega, by omega, by assumption, ?_⟩
       injection h with h2
       exact h2.symm)

/-- C3: in every successful 32-bit legacy decode the output dimensions are
the header dimensions and the pixel at (x, y) is built from the 4 bytes at
offset header_size + ((height - 1 - y) * width + x) * 4 of the blob taken in
B, G, R, A order and reordered to R, G, B, A; rows are read bottom-up with
stride exactly width * 4, so the first byte-stream row lands at y =
height - 1. -/
theorem c3_dib32_pixels (blob : List Nat) (img : Image)
    (hok : decodeDib blob = .ok img) (hbpp : dibBpp blob = 32) :
    img.width = dibW blob ∧ img.height = dibH blob ∧
      ∀ x y, x < img.width → y < img.height →
        img.pix x y =
          ⟨readU8 blob (headerSize blob + (((img.height - 1 - y) * img.width + x) * 4 + 2)),
           readU8 blob (headerSize blob + (((img.height - 1 - y) * img.width + x) * 4 + 1)),
           readU8 blob (headerSize blob + ((img.height - 1 - y) * img.width + x) * 4),
           readU8 blob (headerSize blob + (((img.height - 1 - y) * img.width + x) * 4 + 3))⟩ := by
  obtain ⟨-, -, -, -, -, hok32, himg⟩ := decodeDib_ok_32 hok hbpp
  have hw : img.width = dibW blob := by rw [himg]
  have hh : img.height = dibH blob := by rw [himg]
  have hp : img.pix = dib32Pix blob := by rw [himg]
  refine ⟨hw, hh, ?_⟩
  intro x y hx hy
  rw [hw] at hx
  rw [hh] at hy
  rw [hw, hh, hp]
  have hw0 : dibW blob ≠ 0 := by omega
  have hh0 : dibH blob ≠ 0 := by omega
  have hmax : ((dibH blob - 1) * dibW blob + (dibW blob - 1)) * 4 + 3 < expected32 blob := by
    rw [ok32] at hok32
    simp only [Bool.or_eq_true, decide_eq_true_eq] at hok32
    rcases hok32 with (h | h) | h
    · exact absurd h hw0
    · exact absurd h hh0
    · exact h
  have hrow : (dibH blob - 1 - y) * dibW blob ≤ (dibH blob - 1) * dibW blob :=
    Nat.mul_le_mul_right _ (by omega)
  have hi : ((dibH blob - 1 - y) * dibW blob + x) * 4 + 3 < expected32 blob := by omega
  simp only [dib32Pix]
  rw [readU8_dib32Data _ _ (by omega), readU8_dib32Data _ _ (by omega),
    readU8_dib32Data _ _ (by omega), readU8_dib32Data _ _ (by omega)]

/-- C7: for every blob long enough to contain the 40-byte header that the
legacy path parses, decoding fails with the unsupported-header error when
the declared header size is below 40, with the invalid-dimension error when
the combined height is not positive, with the unsupported-compression error
when the compression field is nonzero, with the unsupported-bit-depth error
when bits per pixel is neither 8 nor 32, and once all guards pass the only
remaining failures are truncation errors or an out-of-bounds panic from the
pixel stage: pixel decoding is reached only when no guard fires. -/
theorem c7_guard_errors (blob : List Nat) (hlen : 40 ≤ blob.length) :
    (headerSize blob < 40 → decodeDib blob = .error .unsupportedDibHeader) ∧
    (40 ≤ headerSize blob → dibHTotal blob ≤ 0 →
      decodeDib blob = .error .invalidDibHeight) ∧
    (40 ≤ headerSize blob → 0 < dibHTotal blob → dibCompression blob ≠ 0 →
      decodeDib blob = .error .compressedUnsupported) ∧
    (40 ≤ headerSize blob → 0 < dibHTotal blob → dibCompression blob = 0 →
      dibBpp blob ≠ 32 → dibBpp blob ≠ 8 → decodeDib blob = .error .unsupportedBpp) ∧
    (40 ≤ headerSize blob → 0 < dibHTotal blob → dibCompression blob = 0 →
      (dibBpp blob = 32 ∨ dibBpp blob = 8) →
      ∀ e, decodeDib blob = .error e →
        e = .truncated32 ∨ e = .truncatedPalette ∨ e = .truncatedPixelArray ∨
          e = .indexOob) := by
  refine ⟨?_, ?_, ?_, ?_, ?_⟩
  · intro h
    rw [decodeDib, if_neg (by omega), if_pos h]
  · intro h1 h2
    rw [decodeDib, if_neg (by omega), if_neg (by omega), if_pos h2]
  · intro h1 h2 h3
    rw [decodeDib, if_neg (by omega), if_neg (by omega), if_neg (by omega), if_pos h3]
  · intro h1 h2 h3 h4 h5
    rw [decodeDib, if_neg (by omega), if_neg (by omega), if_neg (by omega),
      if_neg (by simpa using h3), if_neg h4, if_neg h5]
  · intro h1 h2 h3 h4 e he
    rw [decodeDib, if_neg (by omega), if_neg (by omega), if_neg (by omega),
      if_neg (by simpa using h3)] at he
    rcases h4 with h4 | h4
    · rw [if_pos h4] at he
      split_ifs at he <;> simp_all
    · rw [if_neg (by omega), if_pos h4] at he
      split_ifs at he <;> simp_all

theorem readU16_append_left (l l2 : List Nat) (o : Nat) (h : o + 1 < l.length) :
    readU16 (l ++ l2) o = readU16 l o := by
  unfold readU16 readU8
  rw [List.getD_append _ _ _ _ (by omega), List.getD_append _ _ _ _ (by omega)]

/-- C8: for every input whose 6-byte header has a nonzero reserved field or a
type field other than 1, extract_ico fails with the corresponding
FormatError for any continuation of the file, so the failure is decided by
the header alone, before any entry is read, any blob decoded, or anything
written. -/
theorem c8_header_validation (hdr rest : List Nat) (h6 : hdr.length = 6) :
    (readU16 hdr 0 ≠ 0 →
      extractIco (hdr ++ rest) = .error .invalidReserved ∧
        IcoError.isFormatError .invalidReserved = true) ∧
    (readU16 hdr 0 = 0 → readU16 hdr 2 ≠ 1 →
      extractIco (hdr ++ rest) = .error .notIco ∧
        IcoError.isFormatError .notIco = true) := by
  have hlen : ¬ (hdr ++ rest).length < 6 := by
    rw [List.length_append]; omega
  have h0 : readU16 (hdr ++ rest) 0 = readU16 hdr 0 := readU16_append_left _ _ _ (by omega)
  have h2 : readU16 (hdr ++ rest) 2 = readU16 hdr 2 := readU16_append_left _ _ _ (by omega)
  constructor
  · intro hr
    refine ⟨?_, rfl⟩
    rw [extractIco, if_neg hlen, if_pos (by rw [h0]; exact hr)]
  · intro hr ht
    refine ⟨?_, rfl⟩
    rw [extractIco, if_neg hlen, if_neg (by rw [h0]; simpa using hr),
      if_pos (by rw [h2]; exact ht)]

theorem dib8_bounds {blob : List Nat} (hok : ok8 blob = true)
    (hw : 0 < dibW blob) (hh : 0 < dibH blob) :
    dibW blob * 8 + 31 < 2 ^ 32 ∧
      rowStride8 blob = (dibW blob * 8 + 31) / 32 * 4 ∧
      dibW blob ≤ rowStride8 blob ∧
      pixelArraySize8 blob = rowStride8 blob * dibH blob ∧
      dibW blob + 31 < 2 ^ 32 ∧
      maskStride blob = (dibW blob + 31) / 32 * 4 ∧
      maskStride blob ≤ rowStride8 blob ∧
      maskSize blob = maskStride blob * dibH blob := by
  have hA : (dibH blob - 1) * rowStride8 blob + (dibW blob - 1) < pixelArraySize8 blob := by
    rw [ok8] at hok
    simp only [Bool.or_eq_true, decide_eq_true_eq] at hok
    rcases hok with (h | h) | h
    · omega
    · omega
    · exact h
  have hrs_lt : rowStride8 blob < 2 ^ 30 := by
    rw [rowStride8]; omega
  have hsub : (dibH blob - 1) * rowStride8 blob
      = rowStride8 blob * dibH blob - rowStride8 blob := by
    rw [Nat.sub_one_mul, Nat.mul_comm]
  have hle : rowStride8 blob ≤ rowStride8 blob * dibH blob :=
    Nat.le_mul_of_pos_right _ hh
  have hps : pixelArraySize8 blob = rowStride8 blob * dibH blob % 2 ^ 32 := rfl
  rw [hsub] at hA
  have hkey : rowStride8 blob * dibH blob < 2 ^ 32 ∧
      pixelArraySize8 blob = rowStride8 blob * dibH blob ∧
      dibW blob ≤ rowStride8 blob := by
    omega
  have hnw1 : dibW blob * 8 + 31 < 2 ^ 32 := by
    have h1 := hkey.2.2
    rw [rowStride8] at h1
    omega
  have hrs_eq : rowStride8 blob = (dibW blob * 8 + 31) / 32 * 4 := by
    rw [rowStride8, Nat.mod_eq_of_lt hnw1]
  have hnw31 : dibW blob + 31 < 2 ^ 32 := by omega
  have hms_eq : maskStride blob = (dibW blob + 31) / 32 * 4 := by
    rw [maskStride, Nat.mod_eq_of_lt hnw31]
  have hms_le : maskStride blob ≤ rowStride8 blob := by
    rw [hms_eq, hrs_eq]; omega
  have hmsize : maskSize blob = maskStride blob * dibH blob := by
    have h1 : maskStride blob * dibH blob ≤ rowStride8 blob * dibH blob :=
      Nat.mul_le_mul_right _ hms_le
    have h2 : maskStride blob * dibH blob < 2 ^ 32 := by omega
    rw [maskSize, Nat.mod_eq_of_lt h2]
  exact ⟨hnw1, hrs_eq, hkey.2.2, hkey.2.1, hnw31, hms_eq, hms_le, hmsize⟩

/-- C2: in every successful 8-bit indexed decode, when the transparency mask
is present each in-range output pixel has alpha exactly 0 when its mask bit
(read bottom-up with stride ceil(width/32)*4 bytes per row, most significant
bit first, as specMaskBit states it) is 1 and alpha exactly 255 when it is
0, independent of the palette colour; when no mask is present every pixel
has alpha exactly 255. -/
theorem c2_mask_alpha (blob : List Nat) (img : Image)
    (hok : decodeDib blob = .ok img) (hbpp : dibBpp blob = 8) :
    (maskPresent blob = false → ∀ x y, (img.pix x y).a = 255) ∧
    (maskPresent blob = true → ∀ x y, x < img.width → y < img.height →
      (img.pix x y).a = if specMaskBit blob x y then 0 else 255) := by
  obtain ⟨-, -, -, -, -, -, hok8, himg⟩ := decodeDib_ok_8 hok hbpp
  have hpimg : img.pix = dib8Pix blob := by rw [himg]
  have hwid : img.width = dibW blob := by rw [himg]
  have hhei : img.height = dibH blob := by rw [himg]
  constructor
  · intro hmp x y
    rw [hpimg]
    simp only [dib8Pix, hmp]
    simp
  · intro hmp x y hx hy
    rw [hwid] at hx
    rw [hhei] at hy
    have hw : 0 < dibW blob := by omega
    have hh : 0 < dibH blob := by omega
    obtain ⟨hnw1, hrs_eq, hw_rs, hps, hnw31, hms_eq, hms_le, hmsize⟩ :=
      dib8_bounds hok8 hw hh
    have hmplen : maskOffset blob + maskSize blob ≤ blob.length := by
      rw [maskPresent, decide_eq_true_eq] at hmp
      exact hmp
    have hs3 : (dibW blob - 1) / 8 < maskStride blob := by
      rw [hms_eq]; omega
    have hs1 : (dibH blob - 1 - y) * maskStride blob
        ≤ (dibH blob - 1) * maskStride blob :=
      Nat.mul_le_mul_right _ (by omega)
    have hs4 : ((dibH blob - 1) + 1) * maskStride blob
        = (dibH blob - 1) * maskStride blob + maskStride blob := Nat.succ_mul _ _
    have hs5 : maskStride blob * dibH blob = ((dibH blob - 1) + 1) * maskStride blob := by
      rw [Nat.mul_comm]
      congr 1
      omega
    have hx8 : x / 8 ≤ (dibW blob - 1) / 8 := Nat.div_le_div_right (by omega)
    have hbi : (dibH blob - 1 - y) * maskStride blob + x / 8 < maskSize blob := by
      rw [hmsize, hs5, hs4]
      omega
    have hmblen : (maskBytes blob).length = maskSize blob := by
      rw [maskBytes, List.length_take, List.length_drop]
      exact Nat.min_eq_left (by omega)
    have hread : readU8 (maskBytes blob) ((dibH blob - 1 - y) * maskStride blob + x / 8)
        = readU8 blob
            (maskOffset blob + (dibH blob - 1 - y) * ((dibW blob + 31) / 32 * 4) + x / 8) := by
      rw [maskBytes, readU8_take _ _ _ hbi, readU8_drop]
      congr 1
      rw [← hms_eq]
      omega
    rw [hpimg]
    simp only [dib8Pix, hmp, if_true]
    rw [specMaskBit]
    by_cases hbit : readU8 blob
        (maskOffset blob + (dibH blob - 1 - y) * ((dibW blob + 31) / 32 * 4) + x / 8)
        / 2 ^ (7 - x % 8) % 2 = 1
    · rw [if_pos ⟨by omega, by rw [hread]; exact hbit⟩, if_pos (by simpa using hbit)]
    · rw [if_neg ?hc1, if_neg (by simpa using hbit)]
      case hc1 =>
        intro hand
        rw [hread] at hand
        exact hbit hand.2

theorem decodeDib_8_eq_ok (blob : List Nat)
    (hlen : 40 ≤ blob.length) (hhs : 40 ≤ headerSize blob) (hh : 0 < dibHTotal blob)
    (hc : dibCompression blob = 0) (hbpp : dibBpp blob = 8)
    (hpal : headerSize blob + paletteBytes blob ≤ blob.length)
    (hpix : pixelOffset8 blob + pixelArraySize8 blob ≤ blob.length)
    (hok : ok8 blob = true) :
    decodeDib blob = .ok ⟨dibW blob, dibH blob, dib8Pix blob⟩ := by
  rw [decodeDib, if_neg (by omega), if_neg (by omega), if_neg (by omega),
    if_neg (by omega), if_neg (by omega), if_pos hbpp,
    if_neg (by omega), if_neg (by omega), if_pos hok]

theorem paletteLen_pos (blob : List Nat) : 1 ≤ paletteLen blob := by
  rw [paletteLen]; split <;> omega

theorem palette_length (blob : List Nat)
    (hpal : headerSize blob + paletteBytes blob ≤ blob.length) :
    (palette blob).length = paletteBytes blob := by
  rw [palette, List.length_take, List.length_drop]
  exact Nat.min_eq_left (by omega)

/-- C9: in every 8-bit indexed decode that passes the palette truncation
check and reaches the pixel loops, the palette has at least one entry, each
pixel byte is clamped to palette_len - 1 before indexing, the clamped index
addresses bytes strictly inside the palette slice, and the decode succeeds
with the clamped entry regardless of pixel byte values. -/
theorem c9_palette_clamp (blob : List Nat)
    (hlen : 40 ≤ blob.length) (hhs : 40 ≤ headerSize blob) (hh : 0 < dibHTotal blob)
    (hc : dibCompression blob = 0) (hbpp : dibBpp blob = 8)
    (hpal : headerSize blob + paletteBytes blob ≤ blob.length)
    (hpix : pixelOffset8 blob + pixelArraySize8 blob ≤ blob.length)
    (hok : ok8 blob = true) :
    decodeDib blob = .ok ⟨dibW blob, dibH blob, dib8Pix blob⟩ ∧
      1 ≤ paletteLen blob ∧
      (palette blob).length = paletteBytes blob ∧
      ∀ x y, x < dibW blob → y < dibH blob →
        min (readU8 (pixels8 blob) ((dibH blob - 1 - y) * rowStride8 blob + x))
            (paletteLen blob - 1) < paletteLen blob ∧
        min (readU8 (pixels8 blob) ((dibH blob - 1 - y) * rowStride8 blob + x))
            (paletteLen blob - 1) * 4 + 2 < (palette blob).length ∧
        (dib8Pix blob x y).r = readU8 (palette blob)
          (min (readU8 (pixels8 blob) ((dibH blob - 1 - y) * rowStride8 blob + x))
            (paletteLen blob - 1) * 4 + 2) ∧
        (dib8Pix blob x y).g = readU8 (palette blob)
          (min (readU8 (pixels8 blob) ((dibH blob - 1 - y) * rowStride8 blob + x))
            (paletteLen blob - 1) * 4 + 1) ∧
        (dib8Pix blob x y).b = readU8 (palette blob)
          (min (readU8 (pixels8 blob) ((dibH blob - 1 - y) * rowStride8 blob + x))
            (paletteLen blob - 1) * 4) := by
  refine ⟨decodeDib_8_eq_ok blob hlen hhs hh hc hbpp hpal hpix hok,
    paletteLen_pos blob, palette_length blob hpal, ?_⟩
  intro x y hx hy
  have hN := paletteLen_pos blob
  have hmin : min (readU8 (pixels8 blob) ((dibH blob - 1 - y) * rowStride8 blob + x))
      (paletteLen blob - 1) ≤ paletteLen blob - 1 := Nat.min_le_right _ _
  refine ⟨by omega, ?_, rfl, rfl, rfl⟩
  rw [palette_length blob hpal, paletteBytes]
  omega

/-- C10: an 8-bit indexed blob that contains the header, the palette and the
full pixel array but fewer bytes than the complete mask needs decodes
successfully with the mask treated as entirely absent: no partial mask byte
is applied and every output pixel keeps alpha 255 (stated under the
no-wrap side conditions on the 32-bit stride products, which hold for every
realistic width and height). -/
theorem c10_short_mask_ignored (blob : List Nat)
    (hlen : 40 ≤ blob.length) (hhs : 40 ≤ headerSize blob) (hh : 0 < dibHTotal blob)
    (hc : dibCompression blob = 0) (hbpp : dibBpp blob = 8)
    (hpix : pixelOffset8 blob + pixelArraySize8 blob ≤ blob.length)
    (hnw1 : dibW blob * 8 + 31 < 2 ^ 32)
    (hnw2 : rowStride8 blob * dibH blob < 2 ^ 32)
    (hshort : blob.length < maskOffset blob + maskSize blob) :
    maskPresent blob = false ∧
      decodeDib blob = .ok ⟨dibW blob, dibH blob, dib8Pix blob⟩ ∧
      ∀ x y, (dib8Pix blob x y).a = 255 := by
  have hpo : pixelOffset8 blob = headerSize blob + paletteBytes blob := rfl
  have hmo : maskOffset blob = pixelOffset8 blob + pixelArraySize8 blob := rfl
  have hw : 0 < dibW blob := by
    by_contra hw0
    have h0 : dibW blob = 0 := by omega
    have hms : maskStride blob = 0 := by
      rw [maskStride, h0]
      norm_num
    have hsz : maskSize blob = 0 := by
      rw [maskSize, hms]
      simp
    omega
  have hhgt : 0 < dibH blob := by
    by_contra hh0
    have h0 : dibH blob = 0 := by omega
    have hsz : maskSize blob = 0 := by
      rw [maskSize, h0]
      simp
    omega
  have hw_rs : dibW blob ≤ rowStride8 blob := by
    rw [rowStride8, Nat.mod_eq_of_lt hnw1]
    omega
  have hps : pixelArraySize8 blob = rowStride8 blob * dibH blob := by
    rw [pixelArraySize8, Nat.mod_eq_of_lt hnw2]
  have hokA : (dibH blob - 1) * rowStride8 blob + (dibW blob - 1)
      < pixelArraySize8 blob := by
    have hs4 : ((dibH blob - 1) + 1) * rowStride8 blob
        = (dibH blob - 1) * rowStride8 blob + rowStride8 blob := Nat.succ_mul _ _
    have hs5 : rowStride8 blob * dibH blob = ((dibH blob - 1) + 1) * rowStride8 blob := by
      rw [Nat.mul_comm]
      congr 1
      omega
    rw [hps, hs5, hs4]
    omega
  have hok : ok8 blob = true := by
    rw [ok8]
    simp only [Bool.or_eq_true, decide_eq_true_eq]
    exact Or.inr hokA
  have hmp : maskPresent blob = false := by
    rw [maskPresent, decide_eq_false_iff_not]
    omega
  refine ⟨hmp, decodeDib_8_eq_ok blob hlen hhs hh hc hbpp (by omega) hpix hok, ?_⟩
  intro x y
  simp only [dib8Pix, hmp]
  simp

/-- C5, amended: a 32bpp blob shorter than header plus pixel array fails with
the truncated-32bpp-data error, an 8bpp blob shorter than header plus
palette fails with the truncated-palette error, one shorter than header plus
palette plus pixel array fails with the truncated-pixel-array error — all
grouped as TruncatedDataError — and an 8bpp blob that contains the full
pixel array decodes successfully even when mask bytes are missing. -/
theorem c5_amended (blob : List Nat)
    (hlen : 40 ≤ blob.length) (hhs : 40 ≤ headerSize blob) (hh : 0 < dibHTotal blob)
    (hc : dibCompression blob = 0) :
    (dibBpp blob = 32 → blob.length < headerSize blob + expected32 blob →
      decodeDib blob = .error .truncated32 ∧
        IcoError.isTruncatedData .truncated32 = true) ∧
    (dibBpp blob = 8 → blob.length < headerSize blob + paletteBytes blob →
      decodeDib blob = .error .truncatedPalette ∧
        IcoError.isTruncatedData .truncatedPalette = true) ∧
    (dibBpp blob = 8 → headerSize blob + paletteBytes blob ≤ blob.length →
      blob.length < pixelOffset8 blob + pixelArraySize8 blob →
      decodeDib blob = .error .truncatedPixelArray ∧
        IcoError.isTruncatedData .truncatedPixelArray = true) ∧
    (dibBpp blob = 8 → pixelOffset8 blob + pixelArraySize8 blob ≤ blob.length →
      ok8 blob = true → (decodeDib blob).isOk = true) := by
  refine ⟨?_, ?_, ?_, ?_⟩
  · intro hbpp htr
    refine ⟨?_, rfl⟩
    rw [decodeDib, if_neg (by omega), if_neg (by omega), if_neg (by omega),
      if_neg (by omega), if_pos hbpp, if_pos htr]
  · intro hbpp htr
    refine ⟨?_, rfl⟩
    rw [decodeDib, if_neg (by omega), if_neg (by omega), if_neg (by omega),
      if_neg (by omega), if_neg (by omega), if_pos hbpp, if_pos htr]
  · intro hbpp hpal htr
    refine ⟨?_, rfl⟩
    rw [decodeDib, if_neg (by omega), if_neg (by omega), if_neg (by omega),
      if_neg (by omega), if_neg (by omega), if_pos hbpp, if_neg (by omega), if_pos htr]
  · intro hbpp hpix hok
    have hpo : pixelOffset8 blob = headerSize blob + paletteBytes blob := rfl
    rw [decodeDib_8_eq_ok blob hlen hhs hh hc hbpp (by omega) hpix hok]
    rfl

theorem extractIco_image_name (file : List Nat) (name : String) (img : Image)
    (h : extractIco file = .ok (.image name img)) :
    name = outName img.width img.height := by
  simp only [extractIco] at h
  repeat' split at h
  all_goals first
    | exact Except.noConfusion h
    | (injection h with h2
       first
        | exact ExtractOk.noConfusion h2
        | (injection h2 with hn hi
           subst hi
           exact hn.symm))

/-- C4, amended: the 0-means-256 substitution applies to the area used by the
selection ranking (a 0 width or height byte contributes 256 to the key), and
the output file name is always width-x-height of the decoded image, whose
dimensions come from the decoded blob itself. -/
theorem c4_amended :
    (∀ e : DirEntry, e.width = 0 → (entryKey e).1 = 256 * entryH e) ∧
    (∀ e : DirEntry, e.height = 0 → (entryKey e).1 = entryW e * 256) ∧
    (∀ file name img, extractIco file = .ok (.image name img) →
      name = outName img.width img.height) := by
  refine ⟨?_, ?_, fun file name img h => extractIco_image_name file name img h⟩
  · intro e he
    simp [entryKey, entryW, he]
  · intro e he
    simp [entryKey, entryH, he]

theorem writeName_mem (names : List String) (n : String) : n ∈ writeName names n := by
  rw [writeName]
  split
  · assumption
  · exact List.mem_append_right _ (List.mem_cons_self _ _)

/-- C6, amended: the output name of a successful legacy decode is the pure
function width-x-height of the decoded image, so two runs with identical
decoded dimensions write the same path and the second silently overwrites
the first: the destination name set does not grow. -/
theorem c6_amended (f1 f2 : List Nat) (n1 n2 : String) (i1 i2 : Image)
    (h1 : extractIco f1 = .ok (.image n1 i1)) (h2 : extractIco f2 = .ok (.image n2 i2))
    (hw : i1.width = i2.width) (hh : i1.height = i2.height) :
    n1 = n2 ∧ ∀ names, writeName (writeName names n1) n2 = writeName names n1 := by
  have e1 := extractIco_image_name _ _ _ h1
  have e2 := extractIco_image_name _ _ _ h2
  have hn : n1 = n2 := by rw [e1, e2, hw, hh]
  subst hn
  refine ⟨rfl, fun names => ?_⟩
  conv_lhs => rw [writeName]
  rw [if_pos (writeName_mem names n1)]

/-- C4, counterexample: fileC4 has directory width and height bytes 0, yet
the decoded output is named 1x1.png with width 1, because the output
dimensions come from the blob header, not from the 0-means-256 directory
interpretation; the claimed 256x256.png name is not produced. -/
theorem c4_counterexample :
    readU8 fileC4 6 = 0 ∧ readU8 fileC4 7 = 0 ∧
      extractName (extractIco fileC4) = some "1x1.png" ∧
      extractWidth (extractIco fileC4) = some 1 ∧
      some "1x1.png" ≠ some "256x256.png" :=
  ⟨rfl, rfl, rfl, rfl, by decide⟩

/-- C5, counterexample: blobC5 is shorter than header plus palette plus pixel
array plus mask requires (it ends right after the pixel array), yet the
decode succeeds instead of failing with a truncation error. -/
theorem c5_counterexample :
    dibBpp blobC5 = 8 ∧
      blobC5.length = pixelOffset8 blobC5 + pixelArraySize8 blobC5 ∧
      blobC5.length < maskOffset blobC5 + maskSize blobC5 ∧
      (decodeDib blobC5).isOk = true :=
  ⟨rfl, by decide, by decide, rfl⟩

/-- C6, counterexample: two runs decoding images of identical dimensions into
the same destination write the same name 1x1.png, so the second run leaves a
single file and silently overwrites rather than producing two distinct
files with a numeric disambiguator. -/
theorem c6_counterexample :
    extractName (extractIco fileA) = some "1x1.png" ∧
      extractName (extractIco fileB) = some "1x1.png" ∧
      fileA ≠ fileB ∧
      runExtractName (runExtractName [] fileA) fileB = ["1x1.png"] :=
  ⟨rfl, rfl, by decide, rfl⟩

theorem c1_selector_first_max_witness :
    ([⟨16, 16, 32, 100, 22⟩, ⟨16, 16, 32, 100, 300⟩] : List DirEntry) ≠ [] ∧
      ∃ e l1 l2,
        selectBest [⟨16, 16, 32, 100, 22⟩, ⟨16, 16, 32, 100, 300⟩] = some e ∧
        ([⟨16, 16, 32, 100, 22⟩, ⟨16, 16, 32, 100, 300⟩] : List DirEntry) = l1 ++ e :: l2 ∧
        (∀ a ∈ ([⟨16, 16, 32, 100, 22⟩, ⟨16, 16, 32, 100, 300⟩] : List DirEntry),
          keyGt (entryKey a) (entryKey e) = false) ∧
        (∀ a ∈ l1, keyGt (entryKey e) (entryKey a) = true) :=
  ⟨by decide, c1_selector_first_max _ (by decide)⟩

theorem c2_mask_alpha_witness :
    specMaskBit blobC2 0 0 = true ∧ (dib8Pix blobC2 0 0).a = 0 := by
  have hs : specMaskBit blobC2 0 0 = true := by decide
  refine ⟨hs, ?_⟩
  have h : (dib8Pix blobC2 0 0).a = if specMaskBit blobC2 0 0 then 0 else 255 :=
    (c2_mask_alpha blobC2 ⟨1, 1, dib8Pix blobC2⟩ rfl rfl).2 rfl 0 0
      (by decide) (by decide)
  rw [hs] at h
  simpa using h

theorem c3_dib32_pixels_witness : dib32Pix blobC3 0 0 = ⟨30, 20, 10, 40⟩ := by
  have h := (c3_dib32_pixels blobC3 ⟨1, 1, dib32Pix blobC3⟩ rfl rfl).2.2 0 0
    (by decide) (by decide)
  exact h.trans (by decide)

theorem c4_amended_witness :
    (entryKey ⟨0, 0, 32, 44, 22⟩).1 = 256 * entryH ⟨0, 0, 32, 44, 22⟩ ∧
      "1x1.png" = outName 1 1 := by
  refine ⟨c4_amended.1 ⟨0, 0, 32, 44, 22⟩ rfl, ?_⟩
  exact c4_amended.2.2 fileC4 "1x1.png" ⟨1, 1, dib32Pix ((fileC4.drop 22).take 44)⟩ rfl

theorem c5_amended_witness :
    dibBpp blobC5 = 8 ∧ (decodeDib blobC5).isOk = true :=
  ⟨rfl, (c5_amended blobC5 (by decide) (by decide) (by decide) (by decide)).2.2.2
    rfl (by decide) (by decide)⟩

theorem c6_amended_witness :
    ("1x1.png" : String) = "1x1.png" ∧
      writeName (writeName [] "1x1.png") "1x1.png" = writeName [] "1x1.png" := by
  have h := c6_amended fileA fileB "1x1.png" "1x1.png"
    ⟨1, 1, dib32Pix ((fileA.drop 22).take 44)⟩
    ⟨1, 1, dib32Pix ((fileB.drop 22).take 44)⟩ rfl rfl rfl rfl
  exact ⟨h.1, h.2 []⟩

theorem c7_guard_errors_witness :
    40 ≤ blobC7.length ∧ decodeDib blobC7 = .error .unsupportedDibHeader :=
  ⟨by decide, (c7_guard_errors blobC7 (by decide)).1 (by decide)⟩

theorem c8_header_validation_witness :
    extractIco ([1, 0, 1, 0, 0, 0] ++ [0, 0]) = .error .invalidReserved ∧
      IcoError.isFormatError .invalidReserved = true :=
  (c8_header_validation [1, 0, 1, 0, 0, 0] [0, 0] rfl).1 (by decide)

theorem c9_palette_clamp_witness :
    readU8 (pixels8 blobC5) 0 = 255 ∧ paletteLen blobC5 = 1 ∧
      (dib8Pix blobC5 0 0).r = 3 ∧ (dib8Pix blobC5 0 0).g = 2 ∧
      (dib8Pix blobC5 0 0).b = 1 := by
  have h := (c9_palette_clamp blobC5 (by decide) (by decide) (by decide) (by decide)
    rfl (by decide) (by decide) (by decide)).2.2.2 0 0 (by decide) (by decide)
  refine ⟨by decide, by decide, ?_, ?_, ?_⟩
  · exact h.2.2.1.trans (by decide)
  · exact h.2.2.2.1.trans (by decide)
  · exact h.2.2.2.2.trans (by decide)

theorem c10_short_mask_ignored_witness :
    maskPresent blobC10 = false ∧ (dib8Pix blobC10 0 0).a = 255 := by
  have h := c10_short_mask_ignored blobC10 (by decide) (by decide) (by decide)
    (by decide) rfl (by decide) (by decide) (by decide) (by decide)
  exact ⟨h.1, h.2.2 0 0⟩

end IconRust
